import Mathlib

/-!
Shallow embedding of the `rt_ref` crate: a thread-safe `RefCell` built on a
single atomic word (`src/src/cell.rs`, `src/src/cell_ref.rs`,
`src/src/ref_overflow.rs`).

The atomic word (`AtomicUsize`) is modelled as a `Nat` kept below `2 ^ w`,
where `w` is the machine word width; `fetch_add` / `fetch_sub` wrap modulo
`2 ^ w` exactly as the hardware does.  Atomic operations are modelled
sequentially: a `compare_exchange` succeeds exactly when the current value
equals the expected one, so the optimistic-retry loop in
`Cell::check_flag_read` runs a single iteration (in a sequential trace
nothing changes the flag between the load and the CAS).

The flag is a shared `&AtomicUsize` in the source; here it is passed and
returned explicitly by every operation that touches it.
-/

namespace RtRef

/-- Maximum value of the unsigned machine word, `usize::MAX` for width `w`. -/
def usizeMax (w : Nat) : Nat := 2 ^ w - 1

/-- Maximum value of the signed machine word, `isize::MAX`, as an unsigned. -/
def isizeMax (w : Nat) : Nat := 2 ^ (w - 1) - 1

/-- From `src/src/cell_ref.rs` line 22:
`pub(crate) const REF_LIMIT_MAX: usize = isize::MAX as usize;`. -/
def REF_LIMIT_MAX (w : Nat) : Nat := isizeMax w

/-- Wrapping `fetch_add(1)` on the machine word. -/
def fetch_add_one (w flag : Nat) : Nat := (flag + 1) % 2 ^ w

/-- Wrapping `fetch_sub(1)` on the machine word. -/
def fetch_sub_one (w flag : Nat) : Nat := (flag + (2 ^ w - 1)) % 2 ^ w

/-- Error tags returned by the fallible borrow operations.  The declaring
file `borrow_fail.rs` is not under `src/`, but the two variants are fixed by
their construction sites in `src/src/cell.rs` lines 70 and 104
(`BorrowFail::BorrowConflictImm`, `BorrowFail::BorrowConflictMut`). -/
inductive BorrowFail : Type
  | BorrowConflictImm
  | BorrowConflictMut
  deriving DecidableEq

/-- From `src/src/ref_overflow.rs`: `pub struct RefOverflow;`, the error for a
shared-reference count that cannot be incremented further. -/
inductive RefOverflow : Type
  | mk
  deriving DecidableEq

/-- From `src/src/cell.rs` lines 21-24: `Cell<T>` owns the atomic borrow flag
and the value (`UnsafeCell<T>`). -/
structure Cell (T : Type) : Type where
  flag : Nat
  inner : T
  deriving DecidableEq

/-- From `src/src/cell_ref.rs` lines 13-19: a shared-borrow guard; it holds a
reference to the cell's flag (modelled by passing the flag explicitly) and a
reference to the value. -/
structure CellRef (T : Type) : Type where
  value : T
  deriving DecidableEq

/-- Exclusive-borrow guard (`CellRefMut`), declared in `cell_ref_mut.rs`,
which is not under `src/`; its construction sites in `src/src/cell.rs` lines
87-90 and 99-102 show it holds the flag reference and the value, like
`CellRef`. -/
structure CellRefMut (T : Type) : Type where
  value : T
  deriving DecidableEq

/-- From `src/src/cell.rs` lines 117-133 (`Cell::check_flag_read`): load the
flag value `val`; if `val >= REF_LIMIT_MAX`, return `false` without mutating;
otherwise CAS from `val` to `val + 1` and return `true`.  Sequentially the
CAS succeeds on the first iteration.  Returns the success flag and the
resulting state. -/
def check_flag_read (w flag : Nat) : Bool × Nat :=
  if REF_LIMIT_MAX w ≤ flag then (false, flag)
  else (true, flag + 1)

/-- From `src/src/cell.rs` lines 137-141 (`Cell::check_flag_write`): a single
`compare_exchange(0, usize::MAX)` with no retry loop. -/
def check_flag_write (w flag : Nat) : Bool × Nat :=
  if flag = 0 then (true, usizeMax w)
  else (false, flag)

/-- From `src/src/cell.rs` lines 28-33: `Cell::new` initialises the flag
to `0`. -/
def Cell.new {T : Type} (inner : T) : Cell T :=
  { flag := 0, inner := inner }

/-- From `src/src/cell.rs` lines 63-72 (`Cell::try_borrow`): on a successful
`check_flag_read` return a shared guard, otherwise
`Err(BorrowFail::BorrowConflictImm)`. -/
def Cell.try_borrow {T : Type} (c : Cell T) (w : Nat) :
    Except BorrowFail (CellRef T) × Cell T :=
  let res := check_flag_read w c.flag
  if res.1 then (Except.ok { value := c.inner }, { c with flag := res.2 })
  else (Except.error BorrowFail.BorrowConflictImm, { c with flag := res.2 })

/-- From `src/src/cell.rs` lines 97-106 (`Cell::try_borrow_mut`): on a
successful `check_flag_write` return an exclusive guard, otherwise
`Err(BorrowFail::BorrowConflictMut)`. -/
def Cell.try_borrow_mut {T : Type} (c : Cell T) (w : Nat) :
    Except BorrowFail (CellRefMut T) × Cell T :=
  let res := check_flag_write w c.flag
  if res.1 then (Except.ok { value := c.inner }, { c with flag := res.2 })
  else (Except.error BorrowFail.BorrowConflictMut, { c with flag := res.2 })

/-- From `src/src/cell_ref.rs` lines 43-56 (`CellRef::try_clone`):
`fetch_add(1)`; if the previous value was at or above `REF_LIMIT_MAX`,
`fetch_sub(1)` to roll back and report `RefOverflow`; otherwise the clone
shares the same flag and value. -/
def CellRef.try_clone {T : Type} (r : CellRef T) (w flag : Nat) :
    Except RefOverflow (CellRef T) × Nat :=
  let previous_value := flag
  let flag1 := fetch_add_one w flag
  if REF_LIMIT_MAX w ≤ previous_value then
    (Except.error RefOverflow.mk, fetch_sub_one w flag1)
  else
    (Except.ok { value := r.value }, flag1)

/-- From `src/src/cell_ref.rs` lines 101-115 (`CellRef::map`): forget the
original guard (`mem::forget`, suppressing its destructor) and build a new
guard over `f value`; the atomic flag is not touched, which is why this
function does not take or return a flag. -/
def CellRef.map {T U : Type} (r : CellRef T) (f : T → U) : CellRef U :=
  { value := f r.value }

/-- From `src/src/cell_ref.rs` lines 129-136 (`impl Drop for CellRef`):
`fetch_sub(1, Release)` on the shared flag. -/
def CellRef.drop (w flag : Nat) : Nat := fetch_sub_one w flag

/-- Modelled from the spec: `cell_ref_mut.rs` is not under `src/`.  Section
4.1 of the spec says `release_exclusive()` is an atomic store of `0`, and the
test `ref_mut_map_drops_borrow` in `src/src/cell.rs` observes the flag going
from `usize::MAX` to `0` when the exclusive guard is dropped. -/
def CellRefMut.drop (w flag : Nat) : Nat := 0

/-- Modelled from the spec: `cell_ref_mut.rs` is not under `src/`.  Section
4.3 of the spec says projection produces a new guard over the projected value
without touching the atomic state, suppressing the original guard's
destructor; the test `ref_mut_map_preserves_flag` in `src/src/cell.rs`
observes the flag unchanged across the projection. -/
def CellRefMut.map {T U : Type} (m : CellRefMut T) (f : T → U) : CellRefMut U :=
  { value := f m.value }

/-- Operations a client can perform on one cell and its guards.  `borrow` and
`borrow_mut` panic where `try_borrow` / `try_borrow_mut` return an error, but
have the same effect on the flag (`src/src/cell.rs` lines 48-57 and 82-91
call the same `check_flag_read` / `check_flag_write`), so the `try` forms
cover both. -/
inductive Op : Type
  | tryBorrow
  | tryBorrowMut
  | cloneGuard
  | mapGuard
  | dropShared
  | dropExclusive
  deriving DecidableEq

/-- Observable configuration between operations: the atomic flag together
with the live guards (number of live shared guards, whether the exclusive
guard is live), which determine which guard operations can be invoked. -/
structure Config : Type where
  flag : Nat
  shared : Nat
  excl : Bool
  deriving DecidableEq

/-- A fresh cell: flag `0` (`Cell::new`), no guards. -/
def initConfig : Config := { flag := 0, shared := 0, excl := false }

/-- One operation step.  Guard operations require a live guard of the right
kind (`none` means the operation cannot be invoked at all); borrow attempts
are always possible and record the embedded operation's result.  The flag
effects are exactly those of `check_flag_read`, `check_flag_write`,
`CellRef.try_clone`, `CellRef.drop` and `CellRefMut.drop`; `CellRef.map` and
`CellRefMut.map` do not touch the flag, so `mapGuard` (which consumes one
guard and produces one of the same kind) leaves the configuration as is. -/
def step (w : Nat) (c : Config) : Op → Option Config
  | Op.tryBorrow =>
      let res := check_flag_read w c.flag
      some { c with flag := res.2, shared := if res.1 then c.shared + 1 else c.shared }
  | Op.tryBorrowMut =>
      let res := check_flag_write w c.flag
      some { c with flag := res.2, excl := if res.1 then true else c.excl }
  | Op.cloneGuard =>
      if 1 ≤ c.shared then
        let res := CellRef.try_clone (CellRef.mk ()) w c.flag
        match res.1 with
        | Except.ok _ => some { c with flag := res.2, shared := c.shared + 1 }
        | Except.error _ => some { c with flag := res.2 }
      else none
  | Op.mapGuard =>
      if 1 ≤ c.shared ∨ c.excl = true then some c else none
  | Op.dropShared =>
      if 1 ≤ c.shared then
        some { c with flag := CellRef.drop w c.flag, shared := c.shared - 1 }
      else none
  | Op.dropExclusive =>
      if c.excl = true then
        some { c with flag := CellRefMut.drop w c.flag, excl := false }
      else none

/-- Run a sequence of operations from a configuration; `none` as soon as an
operation cannot be invoked. -/
def run (w : Nat) : List Op → Config → Option Config
  | [], c => some c
  | op :: ops, c =>
      match step w c op with
      | none => none
      | some c1 => run w ops c1

/-- Protocol invariant: the shared count never exceeds `REF_LIMIT_MAX`; when
the exclusive guard is live the flag is the sentinel and no shared guard
exists; otherwise the flag equals the shared count. -/
def Inv (w : Nat) (c : Config) : Prop :=
  c.shared ≤ REF_LIMIT_MAX w
  ∧ (c.excl = true → c.flag = usizeMax w ∧ c.shared = 0)
  ∧ (c.excl = false → c.flag = c.shared)

instance (w : Nat) (c : Config) : Decidable (Inv w c) := by
  unfold Inv
  infer_instance

/-! Arithmetic facts about the word-level constants and operations. -/

theorem REF_LIMIT_MAX_lt_two_pow (w : Nat) : REF_LIMIT_MAX w < 2 ^ w := by
  have h1 : 2 ^ (w - 1) ≤ 2 ^ w := Nat.pow_le_pow_right (by omega) (by omega)
  have h2 : 0 < 2 ^ (w - 1) := Nat.pow_pos (by omega)
  unfold REF_LIMIT_MAX isizeMax
  omega

theorem REF_LIMIT_MAX_lt_usizeMax (w : Nat) (hw : 1 ≤ w) :
    REF_LIMIT_MAX w < usizeMax w := by
  have h1 : 2 ^ (w - 1) < 2 ^ w := Nat.pow_lt_pow_right (by omega) (by omega)
  have h2 : 0 < 2 ^ (w - 1) := Nat.pow_pos (by omega)
  unfold REF_LIMIT_MAX isizeMax usizeMax
  omega

theorem usizeMax_pos (w : Nat) (hw : 1 ≤ w) : 1 ≤ usizeMax w := by
  have h1 : 2 ^ 1 ≤ 2 ^ w := Nat.pow_le_pow_right (by omega) hw
  unfold usizeMax
  omega

theorem usizeMax_lt_two_pow (w : Nat) : usizeMax w < 2 ^ w := by
  have h2 : 0 < 2 ^ w := Nat.pow_pos (by omega)
  unfold usizeMax
  omega

theorem fetch_sub_one_fetch_add_one (w flag : Nat) (h : flag < 2 ^ w) :
    fetch_sub_one w (fetch_add_one w flag) = flag := by
  unfold fetch_add_one fetch_sub_one
  have hp : 0 < 2 ^ w := Nat.pow_pos (by omega)
  rcases Nat.lt_or_ge (flag + 1) (2 ^ w) with h1 | h1
  · rw [Nat.mod_eq_of_lt h1]
    have he : flag + 1 + (2 ^ w - 1) = flag + 2 ^ w := by omega
    rw [he, Nat.add_mod_right, Nat.mod_eq_of_lt h]
  · have he : flag + 1 = 2 ^ w := by omega
    rw [he, Nat.mod_self, Nat.zero_add, Nat.mod_eq_of_lt (by omega)]
    omega

theorem fetch_sub_one_eq (w flag : Nat) (h1 : 1 ≤ flag) (h2 : flag < 2 ^ w) :
    fetch_sub_one w flag = flag - 1 := by
  unfold fetch_sub_one
  have hp : 0 < 2 ^ w := Nat.pow_pos (by omega)
  have he : flag + (2 ^ w - 1) = (flag - 1) + 2 ^ w := by omega
  rw [he, Nat.add_mod_right, Nat.mod_eq_of_lt (by omega)]

theorem fetch_add_one_eq (w flag : Nat) (h : flag + 1 < 2 ^ w) :
    fetch_add_one w flag = flag + 1 := by
  unfold fetch_add_one
  exact Nat.mod_eq_of_lt h

/-! Claims C3, C4, C5. -/

/-- C3: the shared-acquire operation `check_flag_read`, for every current
state value `v`, fails and leaves the state unchanged exactly when
`v ≥ REF_LIMIT_MAX` (a single comparison covering both the overflow limit and
the exclusive sentinel, which is `≥ REF_LIMIT_MAX`); for every
`v < REF_LIMIT_MAX` it succeeds and changes the state from `v` to `v + 1`. -/
theorem check_flag_read_characterization (w v : Nat) :
    (REF_LIMIT_MAX w ≤ v → check_flag_read w v = (false, v))
    ∧ (v < REF_LIMIT_MAX w → check_flag_read w v = (true, v + 1)) := by
  constructor
  · intro h
    simp only [check_flag_read]
    rw [if_pos h]
  · intro h
    simp only [check_flag_read]
    rw [if_neg (by omega)]

/-- Witness for C3: concrete evaluations on a 64-bit word. -/
theorem check_flag_read_characterization_witness :
    check_flag_read 64 (REF_LIMIT_MAX 64) = (false, REF_LIMIT_MAX 64)
    ∧ check_flag_read 64 5 = (true, 6) :=
  ⟨(check_flag_read_characterization 64 (REF_LIMIT_MAX 64)).1 (Nat.le_refl _),
   (check_flag_read_characterization 64 5).2 (by decide)⟩

/-- C4: the exclusive-acquire operation `check_flag_write` is a single
compare-and-swap from `0` to the sentinel `usize::MAX`: it succeeds exactly
when the state is `0`, in which case the state becomes the sentinel; for
every non-zero state it fails and leaves the state unchanged. -/
theorem check_flag_write_characterization (w v : Nat) :
    (v = 0 → check_flag_write w v = (true, usizeMax w))
    ∧ (v ≠ 0 → check_flag_write w v = (false, v)) := by
  constructor
  · intro h
    simp only [check_flag_write]
    rw [if_pos h]
  · intro h
    simp only [check_flag_write]
    rw [if_neg h]

/-- Witness for C4: concrete evaluations on a 64-bit word. -/
theorem check_flag_write_characterization_witness :
    check_flag_write 64 0 = (true, usizeMax 64)
    ∧ check_flag_write 64 3 = (false, 3) :=
  ⟨(check_flag_write_characterization 64 0).1 rfl,
   (check_flag_write_characterization 64 3).2 (by decide)⟩

/-- C5 counterexample: on a 64-bit word the shared-borrow limit
`REF_LIMIT_MAX` is `isize::MAX as usize = 2 ^ 63 - 1`, which is not
`usize::MAX - 1 = 2 ^ 64 - 2`. -/
theorem ref_limit_max_ne_usize_max_sub_one :
    ¬ (REF_LIMIT_MAX 64 = usizeMax 64 - 1) := by decide

/-- C5 amended: the shared-borrow limit equals `isize::MAX` cast to `usize`,
i.e. `(usize::MAX - 1) / 2 = 2 ^ (w - 1) - 1` — half the unsigned range, not
one less than its maximum — and it is strictly below `usize::MAX`, leaving
room for the increment-then-check pattern. -/
theorem ref_limit_max_eq_half (w : Nat) (hw : 1 ≤ w) :
    REF_LIMIT_MAX w = (usizeMax w - 1) / 2 ∧ REF_LIMIT_MAX w < usizeMax w := by
  have h2 : 2 ^ w = 2 * 2 ^ (w - 1) := by
    conv_lhs => rw [show w = (w - 1) + 1 by omega]
    rw [Nat.pow_succ]
    ring
  have hp : 0 < 2 ^ (w - 1) := Nat.pow_pos (by omega)
  unfold REF_LIMIT_MAX isizeMax usizeMax
  omega

/-- Witness for C5's amended statement at word width 64. -/
theorem ref_limit_max_eq_half_witness :
    REF_LIMIT_MAX 64 = (usizeMax 64 - 1) / 2 ∧ REF_LIMIT_MAX 64 < usizeMax 64 :=
  ref_limit_max_eq_half 64 (by decide)

/-- C9: for every cell whose flag is at least `REF_LIMIT_MAX` but strictly
below the sentinel `usize::MAX` (shared count saturated, no exclusive borrow
live), `try_borrow` fails with the exclusive-conflict tag
`BorrowConflictImm` — the same tag used when an exclusive borrow is actually
outstanding — and leaves the cell unchanged. -/
theorem try_borrow_saturated_fails {T : Type} (w : Nat) (c : Cell T)
    (h1 : REF_LIMIT_MAX w ≤ c.flag) (h2 : c.flag < usizeMax w) :
    c.try_borrow w = (Except.error BorrowFail.BorrowConflictImm, c) := by
  simp [Cell.try_borrow, check_flag_read, h1]

/-- Witness for C9 at the saturation value on a 64-bit word. -/
theorem try_borrow_saturated_fails_witness :
    (Cell.mk (REF_LIMIT_MAX 64) (0 : Nat)).try_borrow 64
      = (Except.error BorrowFail.BorrowConflictImm, Cell.mk (REF_LIMIT_MAX 64) 0) :=
  try_borrow_saturated_fails 64 (Cell.mk (REF_LIMIT_MAX 64) 0)
    (Nat.le_refl _) (by decide)

/-- C10: for every non-zero flag value — whether it encodes outstanding
shared borrows or the outstanding exclusive borrow — `try_borrow_mut` fails
with the single tag `BorrowConflictMut`, never distinguishing which kind of
conflicting borrow blocked the request, and leaves the cell unchanged. -/
theorem try_borrow_mut_nonzero_fails {T : Type} (w : Nat) (c : Cell T)
    (h : c.flag ≠ 0) :
    c.try_borrow_mut w = (Except.error BorrowFail.BorrowConflictMut, c) := by
  simp [Cell.try_borrow_mut, check_flag_write, h]

/-- Witness for C10 at a shared-conflict flag and at the exclusive sentinel. -/
theorem try_borrow_mut_nonzero_fails_witness :
    (Cell.mk 1 (0 : Nat)).try_borrow_mut 64
      = (Except.error BorrowFail.BorrowConflictMut, Cell.mk 1 0)
    ∧ (Cell.mk (usizeMax 64) (0 : Nat)).try_borrow_mut 64
      = (Except.error BorrowFail.BorrowConflictMut, Cell.mk (usizeMax 64) 0) :=
  ⟨try_borrow_mut_nonzero_fails 64 (Cell.mk 1 0) (by decide),
   try_borrow_mut_nonzero_fails 64 (Cell.mk (usizeMax 64) 0) (by decide)⟩

/-- C6: with the shared state at `REF_LIMIT_MAX`, a clone attempt on an
existing shared guard fails with the overflow error and is fully rolled
back: the state is exactly `REF_LIMIT_MAX` afterwards.  The original guard
is an immutable value in this embedding, so it remains valid and unchanged
by construction. -/
theorem try_clone_overflow_rollback {T : Type} (r : CellRef T) (w : Nat) :
    r.try_clone w (REF_LIMIT_MAX w)
      = (Except.error RefOverflow.mk, REF_LIMIT_MAX w) := by
  simp only [CellRef.try_clone]
  rw [if_pos (Nat.le_refl _),
    fetch_sub_one_fetch_add_one w _ (REF_LIMIT_MAX_lt_two_pow w)]

/-- C7: borrowing from a fresh cell, projecting the guard through the
identity function via `map`, and dereferencing yields the original value;
and the flag immediately after any `map` projection equals the flag
immediately before (`map` performs no atomic update at all — its type does
not even mention the flag). -/
theorem map_identity_roundtrip {T : Type} (w : Nat) (hw : 2 ≤ w) (v : T) :
    (∃ r c1, (Cell.new v).try_borrow w = (Except.ok r, c1)
      ∧ (r.map id).value = v ∧ c1.flag = 1)
    ∧ (∀ c c1 : Config, step w c Op.mapGuard = some c1 → c1.flag = c.flag) := by
  have h2 : 2 ≤ 2 ^ (w - 1) := by
    calc (2 : Nat) = 2 ^ 1 := by norm_num
    _ ≤ 2 ^ (w - 1) := Nat.pow_le_pow_right (by omega) (by omega)
  have h0 : ¬ (REF_LIMIT_MAX w ≤ 0) := by
    unfold REF_LIMIT_MAX isizeMax
    omega
  constructor
  · refine ⟨CellRef.mk v, Cell.mk 1 v, ?_, rfl, rfl⟩
    simp [Cell.new, Cell.try_borrow, check_flag_read, h0]
  · intro c c1 h
    simp only [step] at h
    split at h
    · injection h with h
      rw [← h]
    · exact absurd h (by simp)

/-- Witness for C7 at word width 64 with a `Nat`-valued cell. -/
theorem map_identity_roundtrip_witness :
    (∃ r c1, (Cell.new (7 : Nat)).try_borrow 64 = (Except.ok r, c1)
      ∧ (r.map id).value = 7 ∧ c1.flag = 1)
    ∧ (∀ c c1 : Config, step 64 c Op.mapGuard = some c1 → c1.flag = c.flag) :=
  map_identity_roundtrip 64 (by decide) 7

/-- C2: the four-scenario conflict matrix.  (a) On a fresh cell two
successive `try_borrow` calls both succeed and the state becomes `2`.
(b) After `try_borrow_mut` succeeds (state = sentinel), a subsequent
`try_borrow` fails with `BorrowConflictImm` and the state is unchanged.
(c) After `try_borrow` succeeds (state = `1`), a subsequent `try_borrow_mut`
fails with `BorrowConflictMut` and the state remains `1`.  (d) After a first
`try_borrow_mut` succeeds, a second one fails and the state remains the
sentinel. -/
theorem conflict_matrix {T : Type} (w : Nat) (hw : 3 ≤ w) (v : T) :
    (∃ r1 c1 r2 c2, (Cell.new v).try_borrow w = (Except.ok r1, c1)
        ∧ c1.try_borrow w = (Except.ok r2, c2) ∧ c2.flag = 2)
    ∧ (∃ m c1, (Cell.new v).try_borrow_mut w = (Except.ok m, c1)
        ∧ c1.flag = usizeMax w
        ∧ c1.try_borrow w = (Except.error BorrowFail.BorrowConflictImm, c1))
    ∧ (∃ r c1, (Cell.new v).try_borrow w = (Except.ok r, c1) ∧ c1.flag = 1
        ∧ c1.try_borrow_mut w = (Except.error BorrowFail.BorrowConflictMut, c1))
    ∧ (∃ m c1, (Cell.new v).try_borrow_mut w = (Except.ok m, c1)
        ∧ c1.flag = usizeMax w
        ∧ c1.try_borrow_mut w
            = (Except.error BorrowFail.BorrowConflictMut, c1)) := by
  have h4 : 4 ≤ 2 ^ (w - 1) := by
    calc (4 : Nat) = 2 ^ 2 := by norm_num
    _ ≤ 2 ^ (w - 1) := Nat.pow_le_pow_right (by omega) (by omega)
  have hL : 3 ≤ REF_LIMIT_MAX w := by
    unfold REF_LIMIT_MAX isizeMax
    omega
  have hM : REF_LIMIT_MAX w ≤ usizeMax w :=
    le_of_lt (REF_LIMIT_MAX_lt_usizeMax w (by omega))
  have hM0 : usizeMax w ≠ 0 := by
    have := usizeMax_pos w (by omega)
    omega
  have h0 : ¬ (REF_LIMIT_MAX w ≤ 0) := by omega
  have h1 : ¬ (REF_LIMIT_MAX w ≤ 1) := by omega
  have ha1 : (Cell.new v).try_borrow w = (Except.ok (CellRef.mk v), Cell.mk 1 v) := by
    simp [Cell.new, Cell.try_borrow, check_flag_read, h0]
  have ha2 : (Cell.mk 1 v).try_borrow w = (Except.ok (CellRef.mk v), Cell.mk 2 v) := by
    simp [Cell.try_borrow, check_flag_read, h1]
  have hb1 : (Cell.new v).try_borrow_mut w
      = (Except.ok (CellRefMut.mk v), Cell.mk (usizeMax w) v) := by
    simp [Cell.new, Cell.try_borrow_mut, check_flag_write]
  have hb2 : (Cell.mk (usizeMax w) v).try_borrow w
      = (Except.error BorrowFail.BorrowConflictImm, Cell.mk (usizeMax w) v) := by
    simp [Cell.try_borrow, check_flag_read, hM]
  have hc2 : (Cell.mk 1 v).try_borrow_mut w
      = (Except.error BorrowFail.BorrowConflictMut, Cell.mk 1 v) := by
    simp [Cell.try_borrow_mut, check_flag_write]
  have hd2 : (Cell.mk (usizeMax w) v).try_borrow_mut w
      = (Except.error BorrowFail.BorrowConflictMut, Cell.mk (usizeMax w) v) := by
    simp [Cell.try_borrow_mut, check_flag_write, hM0]
  exact ⟨⟨CellRef.mk v, Cell.mk 1 v, CellRef.mk v, Cell.mk 2 v, ha1, ha2, rfl⟩,
    ⟨CellRefMut.mk v, Cell.mk (usizeMax w) v, hb1, rfl, hb2⟩,
    ⟨CellRef.mk v, Cell.mk 1 v, ha1, rfl, hc2⟩,
    ⟨CellRefMut.mk v, Cell.mk (usizeMax w) v, hb1, rfl, hd2⟩⟩

/-- Witness for C2 at word width 64 with a `Nat`-valued cell. -/
theorem conflict_matrix_witness :
    (∃ r1 c1 r2 c2, (Cell.new (5 : Nat)).try_borrow 64 = (Except.ok r1, c1)
        ∧ c1.try_borrow 64 = (Except.ok r2, c2) ∧ c2.flag = 2)
    ∧ (∃ m c1, (Cell.new (5 : Nat)).try_borrow_mut 64 = (Except.ok m, c1)
        ∧ c1.flag = usizeMax 64
        ∧ c1.try_borrow 64 = (Except.error BorrowFail.BorrowConflictImm, c1))
    ∧ (∃ r c1, (Cell.new (5 : Nat)).try_borrow 64 = (Except.ok r, c1) ∧ c1.flag = 1
        ∧ c1.try_borrow_mut 64 = (Except.error BorrowFail.BorrowConflictMut, c1))
    ∧ (∃ m c1, (Cell.new (5 : Nat)).try_borrow_mut 64 = (Except.ok m, c1)
        ∧ c1.flag = usizeMax 64
        ∧ c1.try_borrow_mut 64
            = (Except.error BorrowFail.BorrowConflictMut, c1)) :=
  conflict_matrix 64 (by decide) 5

/-! Invariant preservation for the operation machine. -/

theorem initConfig_inv (w : Nat) : Inv w initConfig := by
  refine ⟨Nat.zero_le _, ?_, ?_⟩ <;> intro h <;> simp [initConfig] at h ⊢

theorem step_preserves_inv (w : Nat) (hw : 1 ≤ w) (op : Op) (c c1 : Config)
    (hInv : Inv w c) (h : step w c op = some c1) : Inv w c1 := by
  obtain ⟨hsh, het, hef⟩ := hInv
  have hLM : REF_LIMIT_MAX w < usizeMax w := REF_LIMIT_MAX_lt_usizeMax w hw
  have hM2 : usizeMax w < 2 ^ w := usizeMax_lt_two_pow w
  have hL2 : REF_LIMIT_MAX w < 2 ^ w := REF_LIMIT_MAX_lt_two_pow w
  have hM0 : 1 ≤ usizeMax w := usizeMax_pos w hw
  cases op with
  | tryBorrow =>
      by_cases hc : REF_LIMIT_MAX w ≤ c.flag
      · have hstep : step w c Op.tryBorrow = some c := by
          simp [step, check_flag_read, hc]
        rw [hstep] at h
        injection h with h
        rw [← h]
        exact ⟨hsh, het, hef⟩
      · have hstep : step w c Op.tryBorrow
            = some (Config.mk (c.flag + 1) (c.shared + 1) c.excl) := by
          simp [step, check_flag_read, hc]
        rw [hstep] at h
        injection h with h
        rw [← h]
        cases hx : c.excl with
        | true => exact absurd ((het hx).1 ▸ Nat.not_le.mp hc) (by omega)
        | false =>
            have hf := hef hx
            refine ⟨?_, ?_, ?_⟩
            · show c.shared + 1 ≤ REF_LIMIT_MAX w
              omega
            · intro hcon
              exact Bool.noConfusion hcon
            · intro _
              show c.flag + 1 = c.shared + 1
              omega
  | tryBorrowMut =>
      by_cases hc : c.flag = 0
      · have hstep : step w c Op.tryBorrowMut
            = some (Config.mk (usizeMax w) c.shared true) := by
          simp [step, check_flag_write, hc]
        rw [hstep] at h
        injection h with h
        rw [← h]
        cases hx : c.excl with
        | true => exact absurd ((het hx).1 ▸ hc) (by omega)
        | false =>
            have hf := hef hx
            refine ⟨hsh, ?_, ?_⟩
            · intro _
              exact ⟨rfl, show c.shared = 0 by omega⟩
            · intro hcon
              exact Bool.noConfusion hcon
      · have hstep : step w c Op.tryBorrowMut = some c := by
          simp [step, check_flag_write, hc]
        rw [hstep] at h
        injection h with h
        rw [← h]
        exact ⟨hsh, het, hef⟩
  | cloneGuard =>
      by_cases hs : 1 ≤ c.shared
      · cases hx : c.excl with
        | true => exact absurd ((het hx).2) (by omega)
        | false =>
            have hf := hef hx
            by_cases hc : REF_LIMIT_MAX w ≤ c.flag
            · have hstep : step w c Op.cloneGuard = some c := by
                simp only [step, CellRef.try_clone, if_pos hs, if_pos hc]
                rw [fetch_sub_one_fetch_add_one w _ (by omega)]
              rw [hstep] at h
              injection h with h
              rw [← h]
              exact ⟨hsh, het, hef⟩
            · have hstep : step w c Op.cloneGuard
                  = some (Config.mk (c.flag + 1) (c.shared + 1) c.excl) := by
                simp only [step, CellRef.try_clone, if_pos hs, if_neg hc]
                rw [fetch_add_one_eq w _ (by omega)]
              rw [hstep] at h
              injection h with h
              rw [← h]
              refine ⟨?_, ?_, ?_⟩
              · show c.shared + 1 ≤ REF_LIMIT_MAX w
                omega
              · intro hcon
                have hcon2 : c.excl = true := hcon
                rw [hx] at hcon2
                exact Bool.noConfusion hcon2
              · intro _
                show c.flag + 1 = c.shared + 1
                omega
      · have hstep : step w c Op.cloneGuard = none := by
          simp [step, hs]
        rw [hstep] at h
        exact absurd h (by simp)
  | mapGuard =>
      simp only [step] at h
      split at h
      · injection h with h
        rw [← h]
        exact ⟨hsh, het, hef⟩
      · exact absurd h (by simp)
  | dropShared =>
      by_cases hs : 1 ≤ c.shared
      · cases hx : c.excl with
        | true => exact absurd ((het hx).2) (by omega)
        | false =>
            have hf := hef hx
            have hd : CellRef.drop w c.flag = c.flag - 1 := by
              unfold CellRef.drop
              exact fetch_sub_one_eq w _ (by omega) (by omega)
            have hstep : step w c Op.dropShared
                = some (Config.mk (c.flag - 1) (c.shared - 1) c.excl) := by
              simp only [step, if_pos hs, hd]
            rw [hstep] at h
            injection h with h
            rw [← h]
            refine ⟨?_, ?_, ?_⟩
            · show c.shared - 1 ≤ REF_LIMIT_MAX w
              omega
            · intro hcon
              have hcon2 : c.excl = true := hcon
              rw [hx] at hcon2
              exact Bool.noConfusion hcon2
            · intro _
              show c.flag - 1 = c.shared - 1
              omega
      · have hstep : step w c Op.dropShared = none := by
          simp [step, hs]
        rw [hstep] at h
        exact absurd h (by simp)
  | dropExclusive =>
      by_cases hx : c.excl = true
      · have h0 := (het hx).2
        have hstep : step w c Op.dropExclusive
            = some (Config.mk 0 c.shared false) := by
          simp [step, hx, CellRefMut.drop]
        rw [hstep] at h
        injection h with h
        rw [← h]
        refine ⟨hsh, ?_, ?_⟩
        · intro hcon
          exact Bool.noConfusion hcon
        · intro _
          show (0 : Nat) = c.shared
          omega
      · have hstep : step w c Op.dropExclusive = none := by
          simp [step, hx]
        rw [hstep] at h
        exact absurd h (by simp)

theorem run_preserves_inv (w : Nat) (hw : 1 ≤ w) (ops : List Op)
    (c c1 : Config) (hInv : Inv w c) (h : run w ops c = some c1) :
    Inv w c1 := by
  induction ops generalizing c with
  | nil =>
      simp only [run] at h
      injection h with h
      rwa [← h]
  | cons op ops ih =>
      simp only [run] at h
      cases hs : step w c op with
      | none => rw [hs] at h; exact absurd h (by simp)
      | some c2 =>
          rw [hs] at h
          exact ih c2 (step_preserves_inv w hw op c c2 hInv hs) h

/-- C1: along every operation sequence from a fresh cell, the borrow-state
word between operations is exactly one of `0` (unborrowed), a value in
`1 .. REF_LIMIT_MAX` (that many live shared borrows), or the sentinel
`usize::MAX` (one exclusive borrow); a positive shared count and the
exclusive sentinel never coexist; and after a successful exclusive acquire
no acquire of any kind succeeds until the exclusive guard is dropped:
shared acquire and exclusive acquire both fail leaving the flag unchanged,
and no shared guard exists whose clone could be attempted. -/
theorem borrow_state_always_legal (w : Nat) (hw : 1 ≤ w) (ops : List Op)
    (c : Config) (h : run w ops initConfig = some c) :
    (c.flag = 0 ∨ (1 ≤ c.flag ∧ c.flag ≤ REF_LIMIT_MAX w) ∨ c.flag = usizeMax w)
    ∧ ¬ (1 ≤ c.shared ∧ c.excl = true)
    ∧ (c.excl = true →
        check_flag_read w c.flag = (false, c.flag)
        ∧ check_flag_write w c.flag = (false, c.flag)
        ∧ step w c Op.cloneGuard = none) := by
  obtain ⟨hsh, het, hef⟩ := run_preserves_inv w hw ops initConfig c (initConfig_inv w) h
  have hLM : REF_LIMIT_MAX w < usizeMax w := REF_LIMIT_MAX_lt_usizeMax w hw
  have hM0 : 1 ≤ usizeMax w := usizeMax_pos w hw
  refine ⟨?_, ?_, ?_⟩
  · cases hx : c.excl with
    | true => exact Or.inr (Or.inr (het hx).1)
    | false =>
        have hf := hef hx
        rcases Nat.eq_zero_or_pos c.flag with h0 | h0
        · exact Or.inl h0
        · exact Or.inr (Or.inl ⟨h0, by omega⟩)
  · rintro ⟨h1, h2⟩
    have := (het h2).2
    omega
  · intro hx
    obtain ⟨hfl, hs0⟩ := het hx
    refine ⟨?_, ?_, ?_⟩
    · simp only [check_flag_read]
      rw [if_pos (by omega)]
    · simp only [check_flag_write]
      rw [if_neg (by omega)]
    · simp only [step]
      rw [if_neg (by omega)]

/-- Witness for C1: the run consisting of one successful exclusive acquire
on a 64-bit word, landing on the sentinel configuration. -/
theorem borrow_state_always_legal_witness :
    ((Config.mk (usizeMax 64) 0 true).flag = 0
      ∨ (1 ≤ (Config.mk (usizeMax 64) 0 true).flag
          ∧ (Config.mk (usizeMax 64) 0 true).flag ≤ REF_LIMIT_MAX 64)
      ∨ (Config.mk (usizeMax 64) 0 true).flag = usizeMax 64)
    ∧ ¬ (1 ≤ (Config.mk (usizeMax 64) 0 true).shared
        ∧ (Config.mk (usizeMax 64) 0 true).excl = true)
    ∧ ((Config.mk (usizeMax 64) 0 true).excl = true →
        check_flag_read 64 (Config.mk (usizeMax 64) 0 true).flag
          = (false, (Config.mk (usizeMax 64) 0 true).flag)
        ∧ check_flag_write 64 (Config.mk (usizeMax 64) 0 true).flag
          = (false, (Config.mk (usizeMax 64) 0 true).flag)
        ∧ step 64 (Config.mk (usizeMax 64) 0 true) Op.cloneGuard = none) :=
  borrow_state_always_legal 64 (by decide) [Op.tryBorrowMut]
    (Config.mk (usizeMax 64) 0 true) (by decide)

/-- C8: from any configuration satisfying the protocol invariant, dropping a
shared guard decrements the flag exactly once (the new flag plus one is the
old flag), dropping the exclusive guard clears the flag to `0`, and
projecting a guard via `map` and then dropping the projected guard performs
that same single release in total — never twice and never zero times. -/
theorem guard_release_exactly_once (w : Nat) (hw : 1 ≤ w) (c : Config)
    (hInv : Inv w c) :
    (1 ≤ c.shared →
      (∃ c1, step w c Op.dropShared = some c1 ∧ c1.flag + 1 = c.flag)
      ∧ (∃ c1 c2, step w c Op.mapGuard = some c1
          ∧ step w c1 Op.dropShared = some c2 ∧ c2.flag + 1 = c.flag))
    ∧ (c.excl = true →
      (∃ c1, step w c Op.dropExclusive = some c1 ∧ c1.flag = 0)
      ∧ (∃ c1 c2, step w c Op.mapGuard = some c1
          ∧ step w c1 Op.dropExclusive = some c2 ∧ c2.flag = 0)) := by
  obtain ⟨hsh, het, hef⟩ := hInv
  have hL2 : REF_LIMIT_MAX w < 2 ^ w := REF_LIMIT_MAX_lt_two_pow w
  constructor
  · intro hs
    have hx : c.excl = false := by
      cases hx : c.excl with
      | true => exact absurd (het hx).2 (by omega)
      | false => rfl
    have hf := hef hx
    have hd : CellRef.drop w c.flag = c.flag - 1 := by
      unfold CellRef.drop
      exact fetch_sub_one_eq w _ (by omega) (by omega)
    have hstep : step w c Op.dropShared
        = some (Config.mk (c.flag - 1) (c.shared - 1) c.excl) := by
      simp only [step, if_pos hs, hd]
    have hmap : step w c Op.mapGuard = some c := by
      simp only [step]
      rw [if_pos (Or.inl hs)]
    have hdec : (Config.mk (c.flag - 1) (c.shared - 1) c.excl).flag + 1 = c.flag := by
      show c.flag - 1 + 1 = c.flag
      omega
    exact ⟨⟨_, hstep, hdec⟩, ⟨c, _, hmap, hstep, hdec⟩⟩
  · intro hx
    obtain ⟨hfl, hs0⟩ := het hx
    have hstep : step w c Op.dropExclusive
        = some { c with flag := CellRefMut.drop w c.flag, excl := false } := by
      simp only [step]
      rw [if_pos hx]
    have hmap : step w c Op.mapGuard = some c := by
      simp only [step]
      rw [if_pos (Or.inr hx)]
    exact ⟨⟨_, hstep, rfl⟩, ⟨c, _, hmap, hstep, rfl⟩⟩

/-- Witness for C8 at a configuration with one live shared guard and at the
exclusive-sentinel configuration, on a 64-bit word. -/
theorem guard_release_exactly_once_witness :
    Inv 64 (Config.mk 1 1 false)
    ∧ Inv 64 (Config.mk (usizeMax 64) 0 true)
    ∧ ((1 ≤ (Config.mk 1 1 false).shared →
        (∃ c1, step 64 (Config.mk 1 1 false) Op.dropShared = some c1
          ∧ c1.flag + 1 = (Config.mk 1 1 false).flag)
        ∧ (∃ c1 c2, step 64 (Config.mk 1 1 false) Op.mapGuard = some c1
            ∧ step 64 c1 Op.dropShared = some c2
            ∧ c2.flag + 1 = (Config.mk 1 1 false).flag))
      ∧ ((Config.mk 1 1 false).excl = true →
        (∃ c1, step 64 (Config.mk 1 1 false) Op.dropExclusive = some c1
          ∧ c1.flag = 0)
        ∧ (∃ c1 c2, step 64 (Config.mk 1 1 false) Op.mapGuard = some c1
            ∧ step 64 c1 Op.dropExclusive = some c2 ∧ c2.flag = 0)))
    ∧ ((1 ≤ (Config.mk (usizeMax 64) 0 true).shared →
        (∃ c1, step 64 (Config.mk (usizeMax 64) 0 true) Op.dropShared = some c1
          ∧ c1.flag + 1 = (Config.mk (usizeMax 64) 0 true).flag)
        ∧ (∃ c1 c2, step 64 (Config.mk (usizeMax 64) 0 true) Op.mapGuard = some c1
            ∧ step 64 c1 Op.dropShared = some c2
            ∧ c2.flag + 1 = (Config.mk (usizeMax 64) 0 true).flag))
      ∧ ((Config.mk (usizeMax 64) 0 true).excl = true →
        (∃ c1, step 64 (Config.mk (usizeMax 64) 0 true) Op.dropExclusive = some c1
          ∧ c1.flag = 0)
        ∧ (∃ c1 c2, step 64 (Config.mk (usizeMax 64) 0 true) Op.mapGuard = some c1
            ∧ step 64 c1 Op.dropExclusive = some c2 ∧ c2.flag = 0))) :=
  ⟨by decide, by decide,
   guard_release_exactly_once 64 (by decide) (Config.mk 1 1 false) (by decide),
   guard_release_exactly_once 64 (by decide) (Config.mk (usizeMax 64) 0 true)
     (by decide)⟩

end RtRef
